import Mathlib

/-!
Verification model of the `stash` downloader repository.

Shallow embedding conventions:
* Rust `f64` values are modelled as exact rationals (`ℚ`); every claim-relevant
  computation (binary unit multipliers, percentages of exactly representable
  sizes) is exact in `f64`, so the rational model agrees with the code on the
  claims checked here.
* Rust `u64`/`usize` are modelled as `ℕ`; where wrap-around of machine
  arithmetic matters (the `usize` subtraction in `select_next_format`) the
  wrap is written out explicitly modulo `2 ^ 64` (release-mode semantics).
* The regex character classes `\s`, `\w` (Unicode in the `regex` crate) are
  modelled on their ASCII parts; every string the program matches against
  these patterns in the claims below is ASCII.
* Fallible operations return `Option` or `Except`; the filesystem and the
  external `yt-dlp` process are abstracted into explicit outcome parameters.
-/

/-- Model of the `regex` crate's `\s` class (ASCII part). -/
def rsWhitespace (c : Char) : Bool :=
  c = ' ' || c = '\t' || c = '\n' || c = '\r' || c = Char.ofNat 11 || c = Char.ofNat 12

/-- Model of the `regex` crate's `\w` class (ASCII part): `[0-9A-Za-z_]`. -/
def isWordChar (c : Char) : Bool :=
  c.isAlphanum || c = '_'

/-- Character class `[\d.]` used by the size and speed capture groups. -/
def isNumDotChar (c : Char) : Bool :=
  c.isDigit || c = '.'

/-- Character class `[\d:]` used by the ETA capture group. -/
def isNumColonChar (c : Char) : Bool :=
  c.isDigit || c = ':'

/-- Character class `[\w-]` used by the YouTube URL id patterns. -/
def isWordDashChar (c : Char) : Bool :=
  isWordChar c || c = '-'

/-- Consume a literal: `consumeLit lit l` returns the remaining suffix when
`lit` is a prefix of `l`. -/
def consumeLit (lit l : List Char) : Option (List Char) :=
  if lit.isPrefixOf l then some (l.drop lit.length) else none

/-- Anchored match of the percentage token `\d+\.?\d*%`, returning the capture
(the text before the percent sign).  The greedy quantifiers of this pattern
are deterministic: a shorter `\d+`/`\d*` run always leaves a digit in front,
which can never be the required `.` or `%`. -/
def matchTokenAt (l : List Char) : Option (List Char) :=
  let d1 := l.takeWhile Char.isDigit
  if d1.isEmpty then none else
  match l.drop d1.length with
  | '.' :: r3 =>
    let d2 := r3.takeWhile Char.isDigit
    match r3.drop d2.length with
    | '%' :: _ => some (d1 ++ '.' :: d2)
    | _ => none
  | '%' :: _ => some d1
  | _ => none

/-- Anchored match of `progress_re = \[download\]\s+(\d+\.?\d*)%` from
`downloader.rs`, returning capture group 1. -/
def matchProgressAt (l : List Char) : Option (List Char) :=
  match consumeLit ("[download]".toList) l with
  | none => none
  | some r0 =>
    let ws := r0.takeWhile rsWhitespace
    if ws.isEmpty then none else matchTokenAt (r0.drop ws.length)

/-- Unanchored leftmost search: try the anchored matcher at every start
position, earliest first, as the `regex` crate's `captures` does. -/
def findFirstSome {α : Type} (f : List Char → Option α) : List Char → Option α
  | [] => f []
  | c :: t =>
    match f (c :: t) with
    | some x => some x
    | none => findFirstSome f t

/-- Leftmost match of `progress_re` on a whole line. -/
def findProgress (l : List Char) : Option (List Char) :=
  findFirstSome matchProgressAt l

/-- Leftmost match of the bare percentage token `\d+\.?\d*%` on a whole line.
This is the spec's notion of "the line contains a percentage token"; it is
used to compare the spec's wording against the implementation's regex. -/
def findToken (l : List Char) : Option (List Char) :=
  findFirstSome matchTokenAt l

/-- Backtracking split for `([\d.]+)⟨tail⟩`: the greedy `[\d.]+` first claims
all `k` characters of `run`, then surrenders characters from the right one at
a time (regex priority order) until the tail pattern `P` accepts the rest.
`k` counts the characters kept by the capture group. -/
def trySplitK {β : Type} (P : List Char → Option β) (run after : List Char) :
    ℕ → Option (List Char × β)
  | 0 => none
  | Nat.succ k =>
    match P (run.drop (k + 1) ++ after) with
    | some b => some (run.take (k + 1), b)
    | none => trySplitK P run after k

/-- Tail of `size_re` after the `([\d.]+)` group: `(\w+)` with nothing
following, so the greedy `\w+` just needs a nonempty word run. -/
def sizeTail (rest : List Char) : Option (List Char) :=
  let w := rest.takeWhile isWordChar
  if w.isEmpty then none else some w

/-- Tail of `speed_re` after the `([\d.]+)` group: `(\w+)/s`.  Only the
maximal word run can be followed by `/`, since a surrendered word character
is never `/`; so no backtracking is needed inside `\w+`. -/
def speedTail (rest : List Char) : Option (List Char) :=
  let w := rest.takeWhile isWordChar
  if w.isEmpty then none
  else if ("/s".toList).isPrefixOf (rest.drop w.length) then some w else none

/-- Anchored match of `size_re = of\s+~?\s*([\d.]+)(\w+)` from
`downloader.rs`, returning (group 1, group 2). -/
def matchSizeAt (l : List Char) : Option (List Char × List Char) :=
  match consumeLit ("of".toList) l with
  | none => none
  | some r0 =>
    let ws := r0.takeWhile rsWhitespace
    if ws.isEmpty then none else
    let r1 := r0.drop ws.length
    let r2 := match r1 with
      | '~' :: rr => rr
      | _ => r1
    let r3 := r2.dropWhile rsWhitespace
    let run := r3.takeWhile isNumDotChar
    if run.isEmpty then none
    else trySplitK sizeTail run (r3.drop run.length) run.length

/-- Anchored match of `speed_re = at\s+([\d.]+)(\w+)/s` from
`downloader.rs`, returning (group 1, group 2). -/
def matchSpeedAt (l : List Char) : Option (List Char × List Char) :=
  match consumeLit ("at".toList) l with
  | none => none
  | some r0 =>
    let ws := r0.takeWhile rsWhitespace
    if ws.isEmpty then none else
    let r1 := r0.drop ws.length
    let run := r1.takeWhile isNumDotChar
    if run.isEmpty then none
    else trySplitK speedTail run (r1.drop run.length) run.length

/-- Anchored match of `eta_re = ETA\s+([\d:]+)` from `downloader.rs`,
returning capture group 1. -/
def matchEtaAt (l : List Char) : Option (List Char) :=
  match consumeLit ("ETA".toList) l with
  | none => none
  | some r0 =>
    let ws := r0.takeWhile rsWhitespace
    if ws.isEmpty then none else
    let run := (r0.drop ws.length).takeWhile isNumColonChar
    if run.isEmpty then none else some run

/-- Leftmost match of `size_re` on a whole line. -/
def findSize (l : List Char) : Option (List Char × List Char) :=
  findFirstSome matchSizeAt l

/-- Leftmost match of `speed_re` on a whole line. -/
def findSpeed (l : List Char) : Option (List Char × List Char) :=
  findFirstSome matchSpeedAt l

/-- Leftmost match of `eta_re` on a whole line. -/
def findEta (l : List Char) : Option (List Char) :=
  findFirstSome matchEtaAt l

/-- Value of a digit string, most significant digit first. -/
def digitsToNat (l : List Char) : ℕ :=
  l.foldl (fun acc c => 10 * acc + (c.toNat - 48)) 0

/-- Model of Rust `str::parse::<f64>()` on the digit-and-dot strings produced
by the capture groups above: `digits* ('.' digits*)?` with at least one digit
succeeds (exact rational value), anything else — in particular a second dot,
as in `1.2.3` — fails. -/
def parseDecimal (s : List Char) : Option ℚ :=
  let ip := s.takeWhile Char.isDigit
  match s.drop ip.length with
  | [] => if ip.isEmpty then none else some ((digitsToNat ip : ℕ) : ℚ)
  | '.' :: frac =>
    if frac.all Char.isDigit && (!ip.isEmpty || !frac.isEmpty) then
      some (((digitsToNat ip : ℕ) : ℚ) + ((digitsToNat frac : ℕ) : ℚ) / (10 : ℚ) ^ frac.length)
    else none
  | _ => none

/-- Model of Rust `str::parse::<u64>()` on the colon-free capture pieces:
nonempty all-digit strings succeed. -/
def parseU64 (s : List Char) : Option ℕ :=
  if !s.isEmpty && s.all Char.isDigit then some (digitsToNat s) else none

-- Constants from `shared/constants.rs`.

def BYTES_PER_KB : ℚ := 1024
def BYTES_PER_MB : ℚ := 1024 * 1024
def BYTES_PER_GB : ℚ := 1024 * 1024 * 1024
def SECONDS_PER_MINUTE : ℕ := 60
def SECONDS_PER_HOUR : ℕ := 3600

/-- Unit multiplier applied to the size / speed captures
(`match &caps[2] { "KiB" => …, "MiB" => …, "GiB" => …, _ => 1.0 }`). -/
def unitMult (u : List Char) : ℚ :=
  if u = ("KiB".toList) then BYTES_PER_KB
  else if u = ("MiB".toList) then BYTES_PER_MB
  else if u = ("GiB".toList) then BYTES_PER_GB
  else 1

/-- ETA decoding from the `[\d:]+` capture: `MM:SS` or `H:MM:SS`; any other
shape (or a piece that fails `u64` parsing) leaves the ETA unset. -/
def etaFromCapture (s : List Char) : Option ℕ :=
  match s.splitOn ':' with
  | [m, s2] =>
    match parseU64 m, parseU64 s2 with
    | some mm, some ss => some (mm * SECONDS_PER_MINUTE + ss)
    | _, _ => none
  | [h, m, s2] =>
    match parseU64 h, parseU64 m, parseU64 s2 with
    | some hh, some mm, some ss =>
        some (hh * SECONDS_PER_HOUR + mm * SECONDS_PER_MINUTE + ss)
    | _, _, _ => none
  | _ => none

/-- Rust `as u64` cast of a nonnegative `f64`: truncation toward zero
(negative values saturate to 0, matching `Int.toNat`). -/
def f64AsU64 (q : ℚ) : ℕ :=
  q.floor.toNat

/-- `DownloadProgressInfo` from `infra/downloader.rs`. -/
structure DownloadProgressInfo where
  percentage : ℚ
  downloaded_bytes : ℕ
  total_bytes : ℕ
  speed : ℚ
  eta : Option ℕ
  deriving DecidableEq

/-- One iteration of the stdout-parsing loop of
`Downloader::download_with_progress` (`downloader.rs` lines 404-462): the
sample handed to the progress callback for one line, or `none` when the line
is skipped. -/
def parseProgressLine (line : List Char) : Option DownloadProgressInfo :=
  match findProgress line with
  | none => none
  | some cap =>
    match parseDecimal cap with
    | none => none
    | some percentage =>
      let p0 : DownloadProgressInfo :=
        { percentage := percentage, downloaded_bytes := 0, total_bytes := 0,
          speed := 0, eta := none }
      let p1 := match findSize line with
        | some (c1, c2) =>
          match parseDecimal c1 with
          | some size =>
            let total := f64AsU64 (size * unitMult c2)
            { p0 with total_bytes := total,
                      downloaded_bytes := f64AsU64 ((total : ℚ) * percentage / 100) }
          | none => p0
        | none => p0
      let p2 := match findSpeed line with
        | some (c1, c2) =>
          match parseDecimal c1 with
          | some sp => { p1 with speed := sp * unitMult c2 }
          | none => p1
        | none => p1
      let p3 := match findEta line with
        | some cap2 =>
          match etaFromCapture cap2 with
          | some e => { p2 with eta := some e }
          | none => p2
        | none => p2
      some p3

-- ===========================================================================
-- URL validation (`utils.rs`)
-- ===========================================================================

/-- Error taxonomy of `shared/error.rs` restricted to the variants the
modelled operations produce. -/
inductive YtdlError where
  | Io : YtdlError
  | Config : String → YtdlError
  | InvalidUrl : String → YtdlError
  | YtdlpFailed : String → YtdlError
  | Other : String → YtdlError
  deriving DecidableEq

/-- Shared scheme part `^https?://(www\.)?` of the four YouTube patterns.
The optional pieces are deterministic: after `http`, an `s` can only be
followed by `://`, and a kept `www.` can never also start the host literal. -/
def consumeScheme (l : List Char) : Option (List Char) :=
  match consumeLit ("http".toList) l with
  | none => none
  | some r0 =>
    let r1 := match r0 with
      | 's' :: rr => rr
      | _ => r0
    match consumeLit ("://".toList) r1 with
    | none => none
    | some r2 => some (if ("www.".toList).isPrefixOf r2 then r2.drop 4 else r2)

/-- Requirement `[\w-]+` at the end of each pattern: at least one
word-or-dash character (the rest of the string is unconstrained since the
patterns are not right-anchored). -/
def wordDashStart (l : List Char) : Bool :=
  match l with
  | c :: _ => isWordDashChar c
  | [] => false

/-- Anchored match of one YouTube pattern: scheme, then the literal `tail`,
then `[\w-]+`. -/
def matchYt (tail : List Char) (url : List Char) : Bool :=
  match consumeScheme url with
  | none => false
  | some r =>
    match consumeLit tail r with
    | none => false
    | some r2 => wordDashStart r2

/-- `validate_youtube_url` from `utils.rs`: the URL must match one of the
four anchored patterns, otherwise an `InvalidUrl` error is returned. -/
def validate_youtube_url (url : List Char) : Except YtdlError Unit :=
  if matchYt ("youtube.com/watch?v=".toList) url
      || matchYt ("youtu.be/".toList) url
      || matchYt ("youtube.com/playlist?list=".toList) url
      || matchYt ("youtube.com/shorts/".toList) url then
    Except.ok ()
  else
    Except.error (YtdlError.InvalidUrl (String.mk url))

-- ===========================================================================
-- Batch orchestrator (`core/batch.rs`)
-- ===========================================================================

/-- `DownloadStatus` from `core/batch.rs`. -/
inductive DownloadStatus where
  | Pending : DownloadStatus
  | Downloading : DownloadStatus
  | Complete : DownloadStatus
  | Failed : String → DownloadStatus
  | Skipped : DownloadStatus
  deriving DecidableEq

/-- `BatchDownloadItem` from `core/batch.rs`; paths are modelled as strings. -/
structure BatchDownloadItem where
  url : String
  status : DownloadStatus
  title : Option String
  output_path : Option String
  progress : ℚ
  file_size : ℕ
  deriving DecidableEq

/-- `BatchDownloadItem::new`. -/
def BatchDownloadItem.new (url : String) : BatchDownloadItem :=
  { url := url, status := DownloadStatus.Pending, title := none,
    output_path := none, progress := 0, file_size := 0 }

/-- `BatchDownloadStats` from `core/batch.rs`. -/
structure BatchDownloadStats where
  total : ℕ
  successful : ℕ
  failed : ℕ
  skipped : ℕ
  deriving DecidableEq

/-- Abstract outcome of `downloader.download(&url, audio_only)` for one job,
together with the follow-up filesystem size probe and best-effort title
fetch that `download_item` performs on success. -/
inductive DownloadOutcome where
  | success (output_path : String) (file_size : ℕ) (title : Option String) : DownloadOutcome
  | failure (msg : String) : DownloadOutcome

/-- Helper: is an `Except` an `ok`? -/
def exceptIsOk {ε α : Type} : Except ε α → Bool
  | Except.ok _ => true
  | Except.error _ => false

/-- Net effect of `BatchDownloader::download_item` (batch.rs lines 200-276)
on its own slot of the job table, plus its returned `Result<()>`:
a `Skipped` item returns `Ok` untouched; otherwise the item passes through
the transient `Downloading` status and ends `Complete` (with path, size,
100 % progress and a title falling back to the raw URL) or `Failed(reason)`;
a failure is returned as `Err` exactly when `stop_on_error` is set.
Each invocation touches only `items[index]`, so the final job table does not
depend on how the concurrent invocations interleave. -/
def download_item (stop_on_error : Bool) (outcome : DownloadOutcome)
    (item : BatchDownloadItem) : BatchDownloadItem × Except YtdlError Unit :=
  if item.status = DownloadStatus.Skipped then
    (item, Except.ok ())
  else
    match outcome with
    | DownloadOutcome.success path size title =>
      ({ item with status := DownloadStatus.Complete, output_path := some path,
                   progress := 100, file_size := size,
                   title := some (title.getD item.url) },
       Except.ok ())
    | DownloadOutcome.failure msg =>
      ({ item with status := DownloadStatus.Failed msg },
       if stop_on_error then Except.error (YtdlError.YtdlpFailed msg)
       else Except.ok ())

/-- `BatchDownloader::download_all` (batch.rs lines 146-198):
`buffer_unordered` drives every index through `download_item` and
`stream.collect()` gathers all per-job `Result`s — it never stops early.
`successful`/`failed` count `Ok`/`Err` results, `skipped` recounts items
whose final status is `Skipped`, and the stats are returned as `Ok`
(the trailing `history.save()` is modelled as succeeding). -/
def download_all (stop_on_error : Bool) (outcomes : ℕ → DownloadOutcome)
    (items : List BatchDownloadItem) :
    Except YtdlError BatchDownloadStats × List BatchDownloadItem :=
  let stepped := items.mapIdx (fun i it => download_item stop_on_error (outcomes i) it)
  let finalItems := stepped.map Prod.fst
  let results := stepped.map Prod.snd
  let stats : BatchDownloadStats :=
    { total := items.length,
      successful := (results.filter exceptIsOk).length,
      failed := (results.filter (fun r => !exceptIsOk r)).length,
      skipped := (finalItems.filter (fun it => it.status = DownloadStatus.Skipped)).length }
  (Except.ok stats, finalItems)

/-- Concurrency clamp in `BatchDownloader::new` (batch.rs lines 52-66):
`config.concurrent_downloads.unwrap_or(3).max(1).min(10)`. -/
def concurrent_limit (concurrent_downloads : Option ℕ) : ℕ :=
  min (max (concurrent_downloads.getD 3) 1) 10

/-- Rust `str::lines()`: split at newlines, dropping one trailing empty piece
and one trailing carriage return per line. -/
def rustLines (content : String) : List (List Char) :=
  let ps := content.toList.splitOn '\n'
  let ps2 := if ps.getLast? = some [] then ps.dropLast else ps
  ps2.map (fun l => if l.getLast? = some '\r' then l.dropLast else l)

/-- Rust `str::trim()` (ASCII whitespace part). -/
def rustTrim (l : List Char) : List Char :=
  ((l.dropWhile rsWhitespace).reverse.dropWhile rsWhitespace).reverse

/-- URL-collecting loop of `BatchDownloader::load_from_file` (batch.rs lines
76-93): per line trim, skip blank and `#` lines, keep the line exactly when
`validate_youtube_url` accepts it (invalid lines are logged and dropped). -/
def extractBatchUrls (content : String) : List (List Char) :=
  (rustLines content).filterMap (fun line =>
    let t := rustTrim line
    if t.isEmpty || t.head? = some '#' then none
    else
      match validate_youtube_url t with
      | Except.ok _ => some t
      | Except.error _ => none)

/-- `BatchDownloader::load_from_file` (batch.rs lines 68-106) given the file
content (the earlier `read_to_string` having succeeded): fails with a
`Config` error before touching the job list when no valid URL remains,
otherwise appends one `Pending` item per valid URL. -/
def load_from_file (content : String) (items : List BatchDownloadItem) :
    Except YtdlError Unit × List BatchDownloadItem :=
  let urls := extractBatchUrls content
  if urls.isEmpty then
    (Except.error (YtdlError.Config ("No valid URLs found in batch file")), items)
  else
    (Except.ok (), items ++ urls.map (fun u => BatchDownloadItem.new (String.mk u)))

-- ===========================================================================
-- Interleaved scheduler model of `download_all` (for the concurrency bound)
-- ===========================================================================

/-- Position of one in-flight `download_item` invocation between its await
points: `entry` = admitted but before the skip check / `Downloading` write,
`running` = its slot is marked `Downloading` and the external process is
awaited. -/
inductive JobPhase where
  | entry : JobPhase
  | running : JobPhase
  deriving DecidableEq

/-- Scheduler state of `download_all`: indices not yet admitted by
`buffer_unordered` (in submission order), in-flight invocations, and the
shared job-table statuses. -/
structure SchedState where
  queued : List ℕ
  active : List (ℕ × JobPhase)
  status : ℕ → DownloadStatus

/-- Initial scheduler state: all `N` indices queued, none in flight. -/
def initSched (N : ℕ) (status0 : ℕ → DownloadStatus) : SchedState :=
  { queued := List.range N, active := [], status := status0 }

/-- Interleaving semantics of `download_all`'s `buffer_unordered(limit)`
stream: admission is only possible while fewer than `L` invocations are in
flight, and each invocation steps through `download_item`'s lock-protected
critical sections.  Every schedule the Tokio runtime can produce is a path
of this relation (the relation also allows lazier admission, which only
adds schedules, so any invariant proved here covers the real executions). -/
inductive SchedStep (L : ℕ) (outcome : ℕ → DownloadOutcome) :
    SchedState → SchedState → Prop
  | dispatch (st : SchedState) (i : ℕ) (rest : List ℕ) :
      st.queued = i :: rest →
      st.active.length < L →
      SchedStep L outcome st
        { queued := rest, active := (i, JobPhase.entry) :: st.active, status := st.status }
  | skip (st : SchedState) (i : ℕ) :
      (i, JobPhase.entry) ∈ st.active →
      st.status i = DownloadStatus.Skipped →
      SchedStep L outcome st
        { st with active := st.active.erase (i, JobPhase.entry) }
  | start (st : SchedState) (i : ℕ) :
      (i, JobPhase.entry) ∈ st.active →
      st.status i ≠ DownloadStatus.Skipped →
      SchedStep L outcome st
        { queued := st.queued,
          active := (i, JobPhase.running) :: st.active.erase (i, JobPhase.entry),
          status := Function.update st.status i DownloadStatus.Downloading }
  | finish (st : SchedState) (i : ℕ) :
      (i, JobPhase.running) ∈ st.active →
      SchedStep L outcome st
        { queued := st.queued,
          active := st.active.erase (i, JobPhase.running),
          status := Function.update st.status i
            (match outcome i with
             | DownloadOutcome.success _ _ _ => DownloadStatus.Complete
             | DownloadOutcome.failure msg => DownloadStatus.Failed msg) }

/-- States reachable during one `download_all` run. -/
def SchedReachable (L : ℕ) (outcome : ℕ → DownloadOutcome) (N : ℕ)
    (status0 : ℕ → DownloadStatus) (st : SchedState) : Prop :=
  Relation.ReflTransGen (SchedStep L outcome) (initSched N status0) st

/-- Number of jobs among the `N` of the run whose status is `Downloading`. -/
def countDownloading (N : ℕ) (st : SchedState) : ℕ :=
  ((List.range N).filter (fun i => st.status i = DownloadStatus.Downloading)).length

-- ===========================================================================
-- Interaction state machine (`tui/app.rs`, dispatch from `tui/runner.rs`)
-- ===========================================================================

/-- `VideoInfo` from `tui/app.rs`. -/
structure VideoInfo where
  title : String
  uploader : String
  duration : String
  view_count : Option String
  upload_date : Option String
  deriving DecidableEq

/-- `FormatOption` from `tui/app.rs`. -/
structure FormatOption where
  label : String
  resolution : String
  file_size : String
  format_id : String
  deriving DecidableEq

/-- `DownloadProgress` from `tui/app.rs`. -/
structure DownloadProgress where
  percentage : ℚ
  downloaded_bytes : ℕ
  total_bytes : ℕ
  speed : ℚ
  eta : Option ℕ
  elapsed : ℕ
  deriving DecidableEq

/-- `DownloadSuccess` from `tui/app.rs`; the path is modelled as a string. -/
structure DownloadSuccess where
  filename : String
  file_size : String
  duration : String
  save_location : String
  deriving DecidableEq

/-- `DownloadHistory` from `tui/app.rs`; the timestamp is abstract. -/
structure DownloadHistory where
  title : String
  timestamp : ℕ
  url : String
  deriving DecidableEq

/-- `SettingsState` from `tui/screens/settings.rs`. -/
structure SettingsState where
  output_dir : String
  quality : String
  concurrent_downloads : ℕ
  audio_format : String
  selected_index : ℕ
  deriving DecidableEq

/-- `SettingsState::new`. -/
def SettingsState.new (output_dir quality : String) (concurrent_downloads : ℕ) :
    SettingsState :=
  { output_dir := output_dir, quality := quality,
    concurrent_downloads := concurrent_downloads,
    audio_format := "mp3", selected_index := 0 }

/-- `AppState` from `tui/app.rs`. -/
inductive AppState where
  | UrlInput (input : String) (cursor_pos : ℕ) ( is_valid : Option Bool)
      (validation_message : String) (recent_downloads : List DownloadHistory) : AppState
  | FetchingInfo (url : String) : AppState
  | FormatSelection (url : String) (video_info : VideoInfo)
      (formats : List FormatOption) (selected_index : ℕ) : AppState
  | Downloading (url : String) (video_info : VideoInfo) (format : FormatOption)
      (progress : DownloadProgress) : AppState
  | Success (info : DownloadSuccess) : AppState
  | Error (error_type : String) (message : String) (suggestions : List String)
      (last_url : Option String) (retry_count : ℕ) : AppState
  | Help (previous_state : AppState) : AppState
  | Settings (settings : SettingsState) (previous_state : AppState) : AppState
  deriving DecidableEq

/-- `App::go_to_help` (app.rs lines 163-168): box the current state. -/
def go_to_help (s : AppState) : AppState :=
  AppState.Help s

/-- `App::go_to_settings` (app.rs lines 170-176). -/
def go_to_settings (output_dir quality : String) (concurrent : ℕ)
    (s : AppState) : AppState :=
  AppState.Settings (SettingsState.new output_dir quality concurrent) s

/-- `App::back_from_overlay` (app.rs lines 178-188). -/
def back_from_overlay : AppState → AppState
  | AppState.Help prev => prev
  | AppState.Settings _ prev => prev
  | s => s

/-- Is the state one of the two overlay variants? -/
def isOverlay : AppState → Bool
  | AppState.Help _ => true
  | AppState.Settings _ _ => true
  | _ => false

/-- Is the state the `UrlInput` variant? -/
def isUrlInput : AppState → Bool
  | AppState.UrlInput _ _ _ _ _ => true
  | _ => false

/-- Global help-key dispatch from `handle_event` (runner.rs lines 176-184),
assuming a bare `h`/`?` key: help opens only when the state is not already
`Help`, `Settings` or `UrlInput`. -/
def handle_help_key (s : AppState) : AppState :=
  if isOverlay s || isUrlInput s then s else go_to_help s

/-- Rust `str::contains` on string slices: substring search. -/
def containsSub (needle : List Char) : List Char → Bool
  | [] => needle.isPrefixOf []
  | c :: t => needle.isPrefixOf (c :: t) || containsSub needle t

/-- `App::update_input` (app.rs lines 206-223): store buffer and cursor and
live-validate — empty ⇒ `None`, contains `youtube.com` or `youtu.be` ⇒
`Some(true)`, otherwise `Some(false)`; no-op outside `UrlInput`. -/
def update_input (input : String) (cursor_pos : ℕ) : AppState → AppState
  | AppState.UrlInput _ _ _ _ recent =>
    if input.isEmpty then
      AppState.UrlInput input cursor_pos none ("Paste a YouTube URL or press Ctrl+V") recent
    else if containsSub ("youtube.com".toList) input.toList
        || containsSub ("youtu.be".toList) input.toList then
      AppState.UrlInput input cursor_pos (some true) ("Valid YouTube URL") recent
    else
      AppState.UrlInput input cursor_pos (some false) ("Invalid YouTube URL") recent
  | s => s

/-- `App::update_progress` (app.rs lines 273-277): replace the progress of a
`Downloading` state, leave every other state untouched. -/
def update_progress (p : DownloadProgress) : AppState → AppState
  | AppState.Downloading url vi fmt _ => AppState.Downloading url vi fmt p
  | s => s

/-- The `DownloadProgress` the background callback builds from a parsed
sample (runner.rs lines 481-489). -/
def mkDownloadProgress (info : DownloadProgressInfo) (elapsed : ℕ) : DownloadProgress :=
  { percentage := info.percentage, downloaded_bytes := info.downloaded_bytes,
    total_bytes := info.total_bytes, speed := info.speed, eta := info.eta,
    elapsed := elapsed }

/-- Body of the spawned progress-update task in `perform_download`
(runner.rs lines 479-491): re-check that the state is still `Downloading`
under the lock and overwrite only its progress. -/
def progress_callback_update (info : DownloadProgressInfo) (elapsed : ℕ) :
    AppState → AppState
  | AppState.Downloading url vi fmt _ =>
    AppState.Downloading url vi fmt (mkDownloadProgress info elapsed)
  | s => s

/-- The `usize` modulus (64-bit platform), `2 ^ 64` written as a literal. -/
def USIZE_MOD : ℕ := 18446744073709551616

/-- Release-mode `usize` subtraction of 1 (`formats.len() - 1`) on a
usize-representable value (`n < 2 ^ 64`): wraps to `2 ^ 64 - 1` at 0.
A debug build panics on the same underflow. -/
def usizeSub1 (n : ℕ) : ℕ :=
  if n = 0 then USIZE_MOD - 1 else n - 1

/-- `App::select_next_format` (app.rs lines 238-244): increment while
`selected_index < formats.len() - 1`, with the subtraction at `usize`. -/
def select_next_format : AppState → AppState
  | AppState.FormatSelection url vi formats idx =>
    AppState.FormatSelection url vi formats
      (if idx < usizeSub1 formats.length then idx + 1 else idx)
  | s => s

/-- `App::select_previous_format` (app.rs lines 246-252). -/
def select_previous_format : AppState → AppState
  | AppState.FormatSelection url vi formats idx =>
    AppState.FormatSelection url vi formats (if 0 < idx then idx - 1 else idx)
  | s => s

/-- Decidable equality for `Except`, needed to evaluate the model's results
on concrete inputs. -/
instance {ε α : Type} [DecidableEq ε] [DecidableEq α] : DecidableEq (Except ε α) := fun x y =>
  match x, y with
  | Except.ok a, Except.ok b =>
    if h : a = b then isTrue (by rw [h]) else isFalse (by intro hh; cases hh; exact h rfl)
  | Except.ok _, Except.error _ => isFalse (by intro h; cases h)
  | Except.error _, Except.ok _ => isFalse (by intro h; cases h)
  | Except.error a, Except.error b =>
    if h : a = b then isTrue (by rw [h]) else isFalse (by intro hh; cases hh; exact h rfl)

/-- Projection: the live-validation flag of a `UrlInput` state. -/
def getIsValid : AppState → Option Bool
  | AppState.UrlInput _ _ v _ _ => v
  | _ => none

/-- Projection: the selection index of a `FormatSelection` state. -/
def getSelIdx : AppState → ℕ
  | AppState.FormatSelection _ _ _ i => i
  | _ => 0

/-- Concurrency-bound invariant of the scheduler: never more than `L`
invocations in flight, and every `Downloading` slot is witnessed by an
in-flight invocation in its `running` phase. -/
def SchedInv (L : ℕ) (st : SchedState) : Prop :=
  st.active.length ≤ L
  ∧ ∀ i, st.status i = DownloadStatus.Downloading → (i, JobPhase.running) ∈ st.active

-- ===========================================================================
-- Theorems
-- ===========================================================================

theorem usizeSub1_eq_sub_one (n : ℕ) (h1 : 0 < n) (h2 : n < USIZE_MOD) :
    usizeSub1 n = n - 1 := by
  unfold usizeSub1
  simp [Nat.pos_iff_ne_zero.mp h1]

/-- C5: a background progress update rewrites only the progress field of a
state that is still `Downloading`; delivered to any other variant it leaves
the state entirely unchanged; and the runner's spawned callback body is the
same update applied to the sample it builds from the parsed info. -/
theorem progress_update_only_downloading (p : DownloadProgress) (s : AppState) :
    (∀ url vi fmt old, s = AppState.Downloading url vi fmt old →
        update_progress p s = AppState.Downloading url vi fmt p)
    ∧ ((∀ url vi fmt old, s ≠ AppState.Downloading url vi fmt old) →
        update_progress p s = s)
    ∧ (∀ (info : DownloadProgressInfo) (elapsed : ℕ),
        progress_callback_update info elapsed s
          = update_progress (mkDownloadProgress info elapsed) s) := by
  refine ⟨?_, ?_, ?_⟩
  · intro url vi fmt old h
    subst h
    rfl
  · intro h
    cases s with
    | Downloading url vi fmt old => exact absurd rfl (h url vi fmt old)
    | _ => rfl
  · intro info elapsed
    cases s <;> rfl

theorem progress_update_only_downloading_witness :
    update_progress (DownloadProgress.mk 5 1 2 3 none 4)
        (AppState.Downloading ("u") (VideoInfo.mk ("t") ("c") ("0:10") none none)
          (FormatOption.mk ("best") ("auto") ("?") ("best"))
          (DownloadProgress.mk 0 0 0 0 none 0))
      = AppState.Downloading ("u") (VideoInfo.mk ("t") ("c") ("0:10") none none)
          (FormatOption.mk ("best") ("auto") ("?") ("best"))
          (DownloadProgress.mk 5 1 2 3 none 4)
    ∧ update_progress (DownloadProgress.mk 5 1 2 3 none 4) (AppState.FetchingInfo ("u"))
        = AppState.FetchingInfo ("u") :=
  ⟨(progress_update_only_downloading (DownloadProgress.mk 5 1 2 3 none 4)
      (AppState.Downloading ("u") (VideoInfo.mk ("t") ("c") ("0:10") none none)
        (FormatOption.mk ("best") ("auto") ("?") ("best"))
        (DownloadProgress.mk 0 0 0 0 none 0))).1 _ _ _ _ rfl,
   (progress_update_only_downloading (DownloadProgress.mk 5 1 2 3 none 4)
      (AppState.FetchingInfo ("u"))).2.1 (fun _ _ _ _ h => AppState.noConfusion h)⟩

/-- C9: entering the Help or Settings overlay from a non-overlay state and
then backing out restores exactly the captured state, and the global help
key is a no-op while an overlay is already open. -/
theorem overlay_round_trip (s s2 : AppState) (od q : String) (c : ℕ)
    (h : isOverlay s = false) (h2 : isOverlay s2 = true) :
    back_from_overlay (go_to_help s) = s
    ∧ back_from_overlay (go_to_settings od q c s) = s
    ∧ handle_help_key s2 = s2 := by
  refine ⟨rfl, rfl, ?_⟩
  unfold handle_help_key
  rw [h2]
  rfl

theorem overlay_round_trip_witness :
    back_from_overlay (go_to_help (AppState.FetchingInfo ("u"))) = AppState.FetchingInfo ("u")
    ∧ back_from_overlay (go_to_settings ("d") ("best") 3 (AppState.FetchingInfo ("u")))
        = AppState.FetchingInfo ("u")
    ∧ handle_help_key (AppState.Help (AppState.FetchingInfo ("u")))
        = AppState.Help (AppState.FetchingInfo ("u")) :=
  overlay_round_trip (AppState.FetchingInfo ("u"))
    (AppState.Help (AppState.FetchingInfo ("u"))) ("d") ("best") 3 rfl rfl

theorem format_down_empty_cex :
    select_next_format (AppState.FormatSelection ("u")
        (VideoInfo.mk ("t") ("c") ("0:10") none none) [] 0)
      = AppState.FormatSelection ("u") (VideoInfo.mk ("t") ("c") ("0:10") none none) [] 1
    ∧ ¬ (1 < ([] : List FormatOption).length) := by
  constructor
  · decide
  · decide

/-- C6 (amended): for a nonempty format list (of Rust-representable length)
and a starting index within bounds, Down and Up keep the index within
bounds, Down at the last valid index is a no-op, and Up at index 0 is a
no-op.  (On the empty list the `formats.len() - 1` guard underflows and Down
escapes the bounds — see the counterexample.) -/
theorem format_selection_clamped_amended (url : String) (vi : VideoInfo)
    (formats : List FormatOption) (idx : ℕ)
    (hlen : formats.length < USIZE_MOD) (hidx : idx < formats.length) :
    getSelIdx (select_next_format (AppState.FormatSelection url vi formats idx))
      < formats.length
    ∧ (idx = formats.length - 1 →
        select_next_format (AppState.FormatSelection url vi formats idx)
          = AppState.FormatSelection url vi formats idx)
    ∧ getSelIdx (select_previous_format (AppState.FormatSelection url vi formats idx))
      < formats.length
    ∧ (idx = 0 →
        select_previous_format (AppState.FormatSelection url vi formats idx)
          = AppState.FormatSelection url vi formats idx) := by
  have hs : usizeSub1 formats.length = formats.length - 1 :=
    usizeSub1_eq_sub_one _ (by omega) hlen
  simp only [select_next_format, select_previous_format, getSelIdx, hs]
  refine ⟨?_, ?_, ?_, ?_⟩
  · split <;> omega
  · intro he
    have hn : ¬ (idx < formats.length - 1) := by omega
    simp [hn]
  · split <;> omega
  · intro he
    subst he
    simp

theorem format_selection_clamped_amended_witness :
    getSelIdx (select_next_format (AppState.FormatSelection ("u")
        (VideoInfo.mk ("t") ("c") ("0:10") none none)
        [FormatOption.mk ("a") ("a") ("a") ("a"), FormatOption.mk ("b") ("b") ("b") ("b")] 1))
      < 2
    ∧ (1 = 2 - 1 →
        select_next_format (AppState.FormatSelection ("u")
            (VideoInfo.mk ("t") ("c") ("0:10") none none)
            [FormatOption.mk ("a") ("a") ("a") ("a"), FormatOption.mk ("b") ("b") ("b") ("b")] 1)
          = AppState.FormatSelection ("u") (VideoInfo.mk ("t") ("c") ("0:10") none none)
              [FormatOption.mk ("a") ("a") ("a") ("a"), FormatOption.mk ("b") ("b") ("b") ("b")] 1)
    ∧ getSelIdx (select_previous_format (AppState.FormatSelection ("u")
        (VideoInfo.mk ("t") ("c") ("0:10") none none)
        [FormatOption.mk ("a") ("a") ("a") ("a"), FormatOption.mk ("b") ("b") ("b") ("b")] 1))
      < 2
    ∧ (1 = 0 →
        select_previous_format (AppState.FormatSelection ("u")
            (VideoInfo.mk ("t") ("c") ("0:10") none none)
            [FormatOption.mk ("a") ("a") ("a") ("a"), FormatOption.mk ("b") ("b") ("b") ("b")] 1)
          = AppState.FormatSelection ("u") (VideoInfo.mk ("t") ("c") ("0:10") none none)
              [FormatOption.mk ("a") ("a") ("a") ("a"), FormatOption.mk ("b") ("b") ("b") ("b")] 1) :=
  format_selection_clamped_amended ("u") (VideoInfo.mk ("t") ("c") ("0:10") none none)
    [FormatOption.mk ("a") ("a") ("a") ("a"), FormatOption.mk ("b") ("b") ("b") ("b")] 1
    (by decide) (by decide)

theorem f64AsU64_floor (q : ℚ) : f64AsU64 q = (⌊q⌋).toNat := rfl

theorem progress_parser_concrete_line :
    parseProgressLine (("[download]  45.2% of ~150.00MiB at 2.50MiB/s ETA 00:30").toList)
      = some
          { percentage := 45.2, downloaded_bytes := 71093452,
            total_bytes := 157286400, speed := 2621440, eta := some 30 }
    ∧ unitMult (("KiB").toList) = 1024
    ∧ unitMult (("MiB").toList) = 1024 * 1024
    ∧ unitMult (("GiB").toList) = 1024 * 1024 * 1024
    ∧ etaFromCapture (("00:30").toList) = some 30
    ∧ etaFromCapture (("1:02:03").toList) = some (1 * 3600 + 2 * 60 + 3) := by
  have hmain : parseProgressLine (("[download]  45.2% of ~150.00MiB at 2.50MiB/s ETA 00:30").toList)
      = some
          { percentage := ((45 : ℕ) : ℚ) + ((2 : ℕ) : ℚ) / (10 : ℚ) ^ (1 : ℕ),
            downloaded_bytes :=
              f64AsU64 ((f64AsU64 ((((150 : ℕ) : ℚ) + ((0 : ℕ) : ℚ) / (10 : ℚ) ^ (2 : ℕ)) * BYTES_PER_MB) : ℚ)
                * (((45 : ℕ) : ℚ) + ((2 : ℕ) : ℚ) / (10 : ℚ) ^ (1 : ℕ)) / 100),
            total_bytes := f64AsU64 ((((150 : ℕ) : ℚ) + ((0 : ℕ) : ℚ) / (10 : ℚ) ^ (2 : ℕ)) * BYTES_PER_MB),
            speed := (((2 : ℕ) : ℚ) + ((50 : ℕ) : ℚ) / (10 : ℚ) ^ (2 : ℕ)) * BYTES_PER_MB,
            eta := some 30 } := rfl
  refine ⟨?_, ?_, ?_, ?_, by decide, by decide⟩
  · rw [hmain]
    norm_num [Option.some.injEq, DownloadProgressInfo.mk.injEq, f64AsU64_floor,
      BYTES_PER_MB]
    rw [show (Int.toNat 157286400 : ℕ) = 157286400 from by decide]
    norm_num
    all_goals omega
  · rw [show unitMult (("KiB").toList) = BYTES_PER_KB from rfl]
    norm_num [BYTES_PER_KB]
  · rw [show unitMult (("MiB").toList) = BYTES_PER_MB from rfl]
    norm_num [BYTES_PER_MB]
  · rw [show unitMult (("GiB").toList) = BYTES_PER_GB from rfl]
    norm_num [BYTES_PER_GB]

theorem batch_stats_identity_cex :
    (download_all false (fun _ => DownloadOutcome.failure ("boom"))
        [{ BatchDownloadItem.new ("u0") with status := DownloadStatus.Skipped }]).1
      = Except.ok (BatchDownloadStats.mk 1 1 0 1)
    ∧ ¬ ((BatchDownloadStats.mk 1 1 0 1).total
          = (BatchDownloadStats.mk 1 1 0 1).successful
            + (BatchDownloadStats.mk 1 1 0 1).failed
            + (BatchDownloadStats.mk 1 1 0 1).skipped) := by
  constructor
  · decide
  · decide

/-- C1 (amended): once `download_all` returns its stats,
`successful + failed = total` always holds; the spec's identity
`total = successful + failed + skipped` therefore holds exactly when no job
was skipped, because each `Skipped` job resolves with an `Ok` result and is
counted both as successful and as skipped (see the counterexample). -/
theorem batch_stats_identity_amended (stop_on_error : Bool)
    (outcomes : ℕ → DownloadOutcome) (items : List BatchDownloadItem)
    (stats : BatchDownloadStats)
    (h : (download_all stop_on_error outcomes items).1 = Except.ok stats) :
    stats.successful + stats.failed = stats.total
    ∧ (stats.skipped = 0 →
        stats.total = stats.successful + stats.failed + stats.skipped) := by
  dsimp only [download_all] at h
  rw [Except.ok.injEq] at h
  subst h
  have hsplit :=
    (List.length_eq_length_filter_add
      (l := (items.mapIdx (fun i it => download_item stop_on_error (outcomes i) it)).map
        Prod.snd) exceptIsOk).symm
  have hlen :
      ((items.mapIdx (fun i it => download_item stop_on_error (outcomes i) it)).map
        Prod.snd).length = items.length := by
    rw [List.length_map, List.length_mapIdx]
  constructor
  · rw [hsplit, hlen]
  · intro h0
    rw [h0, Nat.add_zero, hsplit, hlen]

theorem batch_stats_identity_amended_witness :
    (BatchDownloadStats.mk 1 1 0 0).successful + (BatchDownloadStats.mk 1 1 0 0).failed
      = (BatchDownloadStats.mk 1 1 0 0).total
    ∧ ((BatchDownloadStats.mk 1 1 0 0).skipped = 0 →
        (BatchDownloadStats.mk 1 1 0 0).total
          = (BatchDownloadStats.mk 1 1 0 0).successful
            + (BatchDownloadStats.mk 1 1 0 0).failed
            + (BatchDownloadStats.mk 1 1 0 0).skipped) :=
  batch_stats_identity_amended false (fun _ => DownloadOutcome.failure ("boom"))
    [BatchDownloadItem.new ("u0")] (BatchDownloadStats.mk 1 1 0 0) (by decide)

/-- C2: evaluating `download_all` with `stop_on_error` set on a run whose
first job fails shows the run does not abort and does not surface the
failure as the run's overall error: every job still resolves, the stats are
returned as `Ok` with the failure merely counted in `failed`, and the
failing job's status is `Failed(reason)` while its sibling completes.  This
contradicts both the spec and the CLI flag's own help text
("Stop batch download on first error", `cli.rs` line 44). -/
theorem stop_on_error_no_abort_eval :
    (download_all true
        (fun i => if i = 0 then DownloadOutcome.failure ("boom")
                  else DownloadOutcome.success ("a.mp4") 10 none)
        [BatchDownloadItem.new ("u0"), BatchDownloadItem.new ("u1")]).1
      = Except.ok (BatchDownloadStats.mk 2 1 1 0)
    ∧ (download_all true
        (fun i => if i = 0 then DownloadOutcome.failure ("boom")
                  else DownloadOutcome.success ("a.mp4") 10 none)
        [BatchDownloadItem.new ("u0"), BatchDownloadItem.new ("u1")]).2
      = [BatchDownloadItem.mk ("u0") (DownloadStatus.Failed ("boom")) none none 0 0,
         BatchDownloadItem.mk ("u1") DownloadStatus.Complete (some ("u1"))
           (some ("a.mp4")) 100 10] := by
  constructor
  · decide
  · decide

theorem schedInv_init (L N : ℕ) (status0 : ℕ → DownloadStatus)
    (h0 : ∀ i, status0 i ≠ DownloadStatus.Downloading) :
    SchedInv L (initSched N status0) := by
  constructor
  · simp [initSched]
  · intro i hi
    exact absurd hi (h0 i)

theorem schedInv_step {L : ℕ} {outcome : ℕ → DownloadOutcome} {st st2 : SchedState}
    (hstep : SchedStep L outcome st st2) (hinv : SchedInv L st) : SchedInv L st2 := by
  obtain ⟨hlen, hdl⟩ := hinv
  cases hstep with
  | dispatch i rest hq hlt =>
    constructor
    · simpa using hlt
    · intro j hj
      exact List.mem_cons_of_mem _ (hdl j hj)
  | skip i hmem hskip =>
    constructor
    · exact le_trans (List.Sublist.length_le (List.erase_sublist _ _)) hlen
    · intro j hj
      have hne : (j, JobPhase.running) ≠ (i, JobPhase.entry) := by simp
      exact (List.mem_erase_of_ne hne).mpr (hdl j hj)
  | start i hmem hns =>
    constructor
    · have h1 : (st.active.erase (i, JobPhase.entry)).length + 1 = st.active.length := by
        rw [List.length_erase_of_mem hmem]
        have h2 : 0 < st.active.length := List.length_pos.mpr (List.ne_nil_of_mem hmem)
        omega
      simp only [List.length_cons]
      omega
    · intro j hj
      by_cases hji : j = i
      · subst hji
        exact List.mem_cons_self _ _
      · have hj2 : st.status j = DownloadStatus.Downloading := by
          have h3 : Function.update st.status i DownloadStatus.Downloading j
              = DownloadStatus.Downloading := hj
          rwa [Function.update_noteq hji] at h3
        refine List.mem_cons_of_mem _ ?_
        have hne : (j, JobPhase.running) ≠ (i, JobPhase.entry) := by simp [hji]
        exact (List.mem_erase_of_ne hne).mpr (hdl j hj2)
  | finish i hmem =>
    constructor
    · exact le_trans (List.Sublist.length_le (List.erase_sublist _ _)) hlen
    · intro j hj
      dsimp only at hj
      by_cases hji : j = i
      · subst hji
        rw [Function.update_same] at hj
        cases houtcome : outcome j <;> rw [houtcome] at hj <;> simp at hj
      · have hj2 : st.status j = DownloadStatus.Downloading := by
          rwa [Function.update_noteq hji] at hj
        have hne : (j, JobPhase.running) ≠ (i, JobPhase.running) := by simp [hji]
        exact (List.mem_erase_of_ne hne).mpr (hdl j hj2)

theorem schedInv_reachable {L N : ℕ} {outcome : ℕ → DownloadOutcome}
    {status0 : ℕ → DownloadStatus} {st : SchedState}
    (h0 : ∀ i, status0 i ≠ DownloadStatus.Downloading)
    (h : SchedReachable L outcome N status0 st) : SchedInv L st := by
  unfold SchedReachable at h
  induction h with
  | refl => exact schedInv_init L N status0 h0
  | tail hab hbc ih => exact schedInv_step hbc ih

theorem countDownloading_le_active (N : ℕ) (st : SchedState)
    (hdl : ∀ i, st.status i = DownloadStatus.Downloading →
        (i, JobPhase.running) ∈ st.active) :
    countDownloading N st ≤ st.active.length := by
  unfold countDownloading
  have hsub : ∀ j, j ∈ (List.range N).filter
        (fun i => st.status i = DownloadStatus.Downloading) →
      j ∈ st.active.map Prod.fst := by
    intro j hj
    rw [List.mem_filter] at hj
    have hmem := hdl j (of_decide_eq_true hj.2)
    exact List.mem_map.mpr ⟨(j, JobPhase.running), hmem, rfl⟩
  have hnd : ((List.range N).filter
      (fun i => st.status i = DownloadStatus.Downloading)).Nodup :=
    (List.nodup_range N).filter _
  calc ((List.range N).filter
          (fun i => st.status i = DownloadStatus.Downloading)).length
      = ((List.range N).filter
          (fun i => st.status i = DownloadStatus.Downloading)).toFinset.card :=
        (List.toFinset_card_of_nodup hnd).symm
    _ ≤ (st.active.map Prod.fst).toFinset.card := by
        refine Finset.card_le_card ?_
        intro x hx
        rw [List.mem_toFinset] at hx
        rw [List.mem_toFinset]
        exact hsub x hx
    _ ≤ (st.active.map Prod.fst).length := List.toFinset_card_le _
    _ = st.active.length := List.length_map _ _

/-- C3: the concurrency limit is `concurrent_downloads` clamped into [1,10]
(default 3 when unset), and in every state reachable during `download_all`
(whose `buffer_unordered` scheduling is modelled by `SchedStep`), the number
of jobs with status `Downloading` never exceeds that limit. -/
theorem downloading_bounded_by_limit
    (concurrent_downloads : Option ℕ) (outcome : ℕ → DownloadOutcome) (N : ℕ)
    (status0 : ℕ → DownloadStatus) (st : SchedState)
    (h0 : ∀ i, status0 i ≠ DownloadStatus.Downloading)
    (hreach : SchedReachable (concurrent_limit concurrent_downloads) outcome N status0 st) :
    countDownloading N st ≤ concurrent_limit concurrent_downloads
    ∧ 1 ≤ concurrent_limit concurrent_downloads
    ∧ concurrent_limit concurrent_downloads ≤ 10
    ∧ concurrent_limit none = 3 := by
  have hinv := schedInv_reachable h0 hreach
  refine ⟨le_trans (countDownloading_le_active N st hinv.2) hinv.1, ?_, ?_, rfl⟩
  · cases concurrent_downloads <;> simp [concurrent_limit]
  · cases concurrent_downloads <;> simp [concurrent_limit]

theorem downloading_bounded_by_limit_witness :
    countDownloading 0 (initSched 0 (fun _ => DownloadStatus.Pending)) ≤ concurrent_limit none
    ∧ 1 ≤ concurrent_limit none
    ∧ concurrent_limit none ≤ 10
    ∧ concurrent_limit none = 3 :=
  downloading_bounded_by_limit none (fun _ => DownloadOutcome.failure ("x")) 0
    (fun _ => DownloadStatus.Pending) (initSched 0 (fun _ => DownloadStatus.Pending))
    (fun _ h => DownloadStatus.noConfusion h) Relation.ReflTransGen.refl

theorem extractBatchUrls_nil_of_blank (content : String)
    (hall : ∀ line ∈ rustLines content,
        rustTrim line = [] ∨ (rustTrim line).head? = some '#') :
    extractBatchUrls content = [] := by
  unfold extractBatchUrls
  rw [List.filterMap_eq_nil]
  intro line hline
  rcases hall line hline with h | h
  · simp [h]
  · simp [h]

/-- C8: given the batch file's content, `load_from_file` skips blank and
`#` lines before validation and drops invalid URLs without failing; it
fails — with the `Config` error kind — exactly when zero valid URLs remain
(in particular on a file of only blanks and comments), and on that failure
the existing job list is left unchanged; otherwise it appends one `Pending`
job per valid URL. -/
theorem load_from_file_config_error_iff (content : String)
    (items : List BatchDownloadItem) :
    ((load_from_file content items).1
        = Except.error (YtdlError.Config ("No valid URLs found in batch file"))
      ↔ extractBatchUrls content = [])
    ∧ (extractBatchUrls content = [] → (load_from_file content items).2 = items)
    ∧ (extractBatchUrls content ≠ [] →
        (load_from_file content items).1 = Except.ok ()
        ∧ (load_from_file content items).2
            = items ++ (extractBatchUrls content).map
                (fun u => BatchDownloadItem.new (String.mk u)))
    ∧ ((∀ line ∈ rustLines content,
          rustTrim line = [] ∨ (rustTrim line).head? = some '#') →
        (load_from_file content items).1
          = Except.error (YtdlError.Config ("No valid URLs found in batch file"))) := by
  by_cases h : extractBatchUrls content = []
  · refine ⟨by simp [load_from_file, h], fun _ => by simp [load_from_file, h],
      fun hne => absurd h hne, fun _ => by simp [load_from_file, h]⟩
  · refine ⟨by simp [load_from_file, h], fun h0 => absurd h0 h, fun _ => ?_, fun hall => ?_⟩
    · constructor
      · simp [load_from_file, h]
      · simp [load_from_file, h]
    · exact absurd (extractBatchUrls_nil_of_blank content hall) h

theorem load_from_file_config_error_iff_witness :
    (load_from_file ("# only a comment\n\n   \n") [BatchDownloadItem.new ("u")]).2
      = [BatchDownloadItem.new ("u")]
    ∧ (load_from_file ("# only a comment\n\n   \n") [BatchDownloadItem.new ("u")]).1
      = Except.error (YtdlError.Config ("No valid URLs found in batch file")) :=
  ⟨(load_from_file_config_error_iff ("# only a comment\n\n   \n")
      [BatchDownloadItem.new ("u")]).2.1 (by decide),
   (load_from_file_config_error_iff ("# only a comment\n\n   \n")
      [BatchDownloadItem.new ("u")]).2.2.2 (by decide)⟩

theorem takeWhile_eq_self_of_all {p : Char → Bool} :
    ∀ {l : List Char}, (∀ a ∈ l, p a = true) → l.takeWhile p = l
  | [], _ => rfl
  | a :: t, h => by
    rw [List.takeWhile_cons, if_pos (h a (List.mem_cons_self a t))]
    rw [takeWhile_eq_self_of_all (fun c hc => h c (List.mem_cons_of_mem a hc))]

theorem takeWhile_append_not {p : Char → Bool} {y : Char} (hy : p y = false) :
    ∀ {xs : List Char}, (∀ c ∈ xs, p c = true) →
      ∀ (ys : List Char), (xs ++ y :: ys).takeWhile p = xs
  | [], _, ys => by simp [List.takeWhile_cons, hy]
  | a :: t, h, ys => by
    rw [List.cons_append, List.takeWhile_cons, if_pos (h a (List.mem_cons_self a t))]
    rw [takeWhile_append_not hy (fun c hc => h c (List.mem_cons_of_mem a hc)) ys]

theorem consumeLit_eq {lit l r : List Char} (h : consumeLit lit l = some r) :
    l = lit ++ r := by
  unfold consumeLit at h
  split at h
  · rename_i hp
    obtain ⟨t, ht⟩ := List.isPrefixOf_iff_prefix.mp hp
    rw [Option.some.injEq] at h
    subst h
    rw [← ht, List.drop_left]
  · cases h

theorem parseDecimal_isSome_of_token {l cap : List Char}
    (h : matchTokenAt l = some cap) : (parseDecimal cap).isSome := by
  have hd1 : ∀ a ∈ l.takeWhile Char.isDigit, Char.isDigit a = true :=
    fun a ha => List.mem_takeWhile_imp (l := l) ha
  unfold matchTokenAt at h
  dsimp only at h
  split at h
  · cases h
  rename_i hne
  have hne2 : (l.takeWhile Char.isDigit).isEmpty = false := by
    simpa using hne
  split at h
  · rename_i x r3 heq
    split at h
    · rename_i y tail2 heq2
      rw [Option.some.injEq] at h
      subst h
      have hd2 : ∀ a ∈ r3.takeWhile Char.isDigit, Char.isDigit a = true :=
        fun a ha => List.mem_takeWhile_imp (l := r3) ha
      unfold parseDecimal
      dsimp only
      rw [takeWhile_append_not (by decide) hd1, List.drop_left]
      have hcond : ((r3.takeWhile Char.isDigit).all Char.isDigit
          && (!(l.takeWhile Char.isDigit).isEmpty
              || !(r3.takeWhile Char.isDigit).isEmpty)) = true := by
        rw [Bool.and_eq_true, Bool.or_eq_true]
        exact ⟨List.all_eq_true.mpr hd2, Or.inl (by rw [hne2]; rfl)⟩
      simp only []
      rw [if_pos hcond]
      rfl
    · cases h
  · rename_i x tail2 heq
    rw [Option.some.injEq] at h
    subst h
    unfold parseDecimal
    dsimp only
    rw [takeWhile_eq_self_of_all hd1, List.drop_length]
    simp only []
    rw [hne2, if_neg (by decide)]
    rfl
  · cases h

theorem findFirstSome_eq_some {α : Type} (f : List Char → Option α) :
    ∀ (l : List Char) (x : α), findFirstSome f l = some x →
      ∃ r, r <:+ l ∧ f r = some x := by
  intro l
  induction l with
  | nil =>
    intro x h
    exact ⟨[], List.suffix_rfl, h⟩
  | cons c t ih =>
    intro x h
    unfold findFirstSome at h
    cases hf : f (c :: t) with
    | some y =>
      rw [hf] at h
      dsimp only at h
      rw [Option.some.injEq] at h
      subst h
      exact ⟨c :: t, List.suffix_rfl, hf⟩
    | none =>
      rw [hf] at h
      dsimp only at h
      obtain ⟨r, hr, hfr⟩ := ih x h
      exact ⟨r, hr.trans (List.suffix_cons c t), hfr⟩

theorem findFirstSome_isSome_of_suffix {α : Type} (f : List Char → Option α) :
    ∀ (l r : List Char), r <:+ l → (f r).isSome →
      (findFirstSome f l).isSome := by
  intro l
  induction l with
  | nil =>
    intro r hr hf
    rw [List.suffix_nil.mp hr] at hf
    unfold findFirstSome
    exact hf
  | cons c t ih =>
    intro r hr hf
    unfold findFirstSome
    cases hf2 : f (c :: t) with
    | some y => rfl
    | none =>
      dsimp only
      rcases List.suffix_cons_iff.mp hr with h1 | h1
      · subst h1
        rw [hf2] at hf
        cases hf
      · exact ih r h1 hf

theorem matchProgressAt_token {l cap : List Char}
    (h : matchProgressAt l = some cap) :
    ∃ r, r <:+ l ∧ matchTokenAt r = some cap := by
  unfold matchProgressAt at h
  cases hc : consumeLit (("[download]").toList) l with
  | none => rw [hc] at h; cases h
  | some r0 =>
    rw [hc] at h
    dsimp only at h
    split at h
    · cases h
    refine ⟨r0.drop (r0.takeWhile rsWhitespace).length, ?_, h⟩
    have h1 : r0 <:+ l := by
      rw [consumeLit_eq hc]
      exact ⟨("[download]").toList, rfl⟩
    exact (List.drop_suffix _ _).trans h1

theorem percent_token_without_marker_cex :
    parseProgressLine (("45.2%").toList) = none
    ∧ (findToken (("45.2%").toList)).isSome = true := by
  constructor
  · decide
  · decide

/-- C4 (amended): a line yields a sample if and only if the
`\[download\]\s+(\d+\.?\d*)%` pattern matches — i.e. the line must contain
the `[download]` marker followed by whitespace and a percentage token, not
merely any percentage token (see the counterexample); a produced sample
still implies a percentage token is present, a non-matching line yields
nothing (not an error), and each field whose sub-pattern (size, speed, ETA)
does not match keeps its zero/None default. -/
theorem progress_sample_iff_marker_amended (l : List Char) :
    ((parseProgressLine l).isSome ↔ (findProgress l).isSome)
    ∧ ((parseProgressLine l).isSome → (findToken l).isSome)
    ∧ (∀ s, parseProgressLine l = some s →
        (findSize l = none → s.total_bytes = 0 ∧ s.downloaded_bytes = 0)
        ∧ (findSpeed l = none → s.speed = 0)
        ∧ (findEta l = none → s.eta = none)) := by
  refine ⟨⟨?_, ?_⟩, ?_, ?_⟩
  · intro hs
    unfold parseProgressLine at hs
    cases hfp : findProgress l with
    | none =>
      rw [hfp] at hs
      dsimp only at hs
      cases hs
    | some cap =>
      rfl
  · intro hs
    cases hfp : findProgress l with
    | none => rw [hfp] at hs; cases hs
    | some cap =>
      obtain ⟨r, hr, hmr⟩ := findFirstSome_eq_some matchProgressAt l cap hfp
      obtain ⟨r2, hr2, htok⟩ := matchProgressAt_token hmr
      have hpd : (parseDecimal cap).isSome := parseDecimal_isSome_of_token htok
      unfold parseProgressLine
      rw [hfp]
      dsimp only
      cases hpd2 : parseDecimal cap with
      | none => rw [hpd2] at hpd; cases hpd
      | some q =>
        rfl
  · intro hs
    cases hfp : findProgress l with
    | none =>
      unfold parseProgressLine at hs
      rw [hfp] at hs
      dsimp only at hs
      cases hs
    | some cap =>
      obtain ⟨r, hr, hmr⟩ := findFirstSome_eq_some matchProgressAt l cap hfp
      obtain ⟨r2, hr2, htok⟩ := matchProgressAt_token hmr
      exact findFirstSome_isSome_of_suffix matchTokenAt l r2 (hr2.trans hr)
        (by rw [htok]; rfl)
  · intro s h
    unfold parseProgressLine at h
    cases hfp : findProgress l with
    | none => rw [hfp] at h; cases h
    | some cap =>
      rw [hfp] at h
      dsimp only at h
      cases hpd : parseDecimal cap with
      | none => rw [hpd] at h; cases h
      | some q =>
        rw [hpd] at h
        dsimp only at h
        rw [Option.some.injEq] at h
        subst h
        refine ⟨?_, ?_, ?_⟩
        · intro hsz
          rw [hsz]
          rcases findSpeed l with _ | ⟨c1, c2⟩
          · rcases findEta l with _ | cap2
            · exact ⟨rfl, rfl⟩
            · dsimp only
              rcases etaFromCapture cap2 with _ | e2
              · exact ⟨rfl, rfl⟩
              · exact ⟨rfl, rfl⟩
          · dsimp only
            rcases parseDecimal c1 with _ | q2
            · rcases findEta l with _ | cap2
              · exact ⟨rfl, rfl⟩
              · dsimp only
                rcases etaFromCapture cap2 with _ | e2
                · exact ⟨rfl, rfl⟩
                · exact ⟨rfl, rfl⟩
            · rcases findEta l with _ | cap2
              · exact ⟨rfl, rfl⟩
              · dsimp only
                rcases etaFromCapture cap2 with _ | e2
                · exact ⟨rfl, rfl⟩
                · exact ⟨rfl, rfl⟩
        · intro hsp
          rw [hsp]
          rcases findSize l with _ | ⟨c1, c2⟩
          · rcases findEta l with _ | cap2
            · rfl
            · dsimp only
              rcases etaFromCapture cap2 with _ | e2
              · rfl
              · rfl
          · dsimp only
            rcases parseDecimal c1 with _ | q2
            · rcases findEta l with _ | cap2
              · rfl
              · dsimp only
                rcases etaFromCapture cap2 with _ | e2
                · rfl
                · rfl
            · rcases findEta l with _ | cap2
              · rfl
              · dsimp only
                rcases etaFromCapture cap2 with _ | e2
                · rfl
                · rfl
        · intro het
          rw [het]
          rcases findSize l with _ | ⟨c1, c2⟩
          · rcases findSpeed l with _ | ⟨c3, c4⟩
            · rfl
            · dsimp only
              rcases parseDecimal c3 with _ | q3
              · rfl
              · rfl
          · dsimp only
            rcases parseDecimal c1 with _ | q2
            · rcases findSpeed l with _ | ⟨c3, c4⟩
              · rfl
              · dsimp only
                rcases parseDecimal c3 with _ | q3
                · rfl
                · rfl
            · rcases findSpeed l with _ | ⟨c3, c4⟩
              · rfl
              · dsimp only
                rcases parseDecimal c3 with _ | q3
                · rfl
                · rfl

theorem progress_sample_iff_marker_amended_witness :
    ((parseProgressLine (("[download] 50%").toList)).isSome
      ↔ (findProgress (("[download] 50%").toList)).isSome)
    ∧ ((parseProgressLine (("[download] 50%").toList)).isSome
        → (findToken (("[download] 50%").toList)).isSome)
    ∧ ((findSize (("[download] 50%").toList) = none →
          (DownloadProgressInfo.mk (((50 : ℕ) : ℚ)) 0 0 0 none).total_bytes = 0
          ∧ (DownloadProgressInfo.mk (((50 : ℕ) : ℚ)) 0 0 0 none).downloaded_bytes = 0)
        ∧ (findSpeed (("[download] 50%").toList) = none →
            (DownloadProgressInfo.mk (((50 : ℕ) : ℚ)) 0 0 0 none).speed = 0)
        ∧ (findEta (("[download] 50%").toList) = none →
            (DownloadProgressInfo.mk (((50 : ℕ) : ℚ)) 0 0 0 none).eta = none)) :=
  ⟨(progress_sample_iff_marker_amended (("[download] 50%").toList)).1,
   (progress_sample_iff_marker_amended (("[download] 50%").toList)).2.1,
   (progress_sample_iff_marker_amended (("[download] 50%").toList)).2.2
     (DownloadProgressInfo.mk (((50 : ℕ) : ℚ)) 0 0 0 none) (by rfl)⟩

theorem containsSub_of_isPrefix {needle hay : List Char}
    (h : needle.isPrefixOf hay = true) : containsSub needle hay = true := by
  cases hay with
  | nil =>
    unfold containsSub
    exact h
  | cons c t =>
    unfold containsSub
    rw [h, Bool.true_or]

theorem containsSub_of_append (needle : List Char) :
    ∀ (p r h : List Char), h = p ++ (needle ++ r) → containsSub needle h = true := by
  intro p
  induction p with
  | nil =>
    intro r h hh
    subst hh
    rw [List.nil_append]
    exact containsSub_of_isPrefix (List.isPrefixOf_iff_prefix.mpr ⟨r, rfl⟩)
  | cons a t ih =>
    intro r h hh
    subst hh
    rw [List.cons_append]
    unfold containsSub
    rw [ih r _ rfl, Bool.or_true]

theorem consumeScheme_parts {l r : List Char} (h : consumeScheme l = some r) :
    ∃ p, l = p ++ r := by
  unfold consumeScheme at h
  cases hc : consumeLit (("http").toList) l with
  | none => rw [hc] at h; cases h
  | some r0 =>
    rw [hc] at h
    dsimp only at h
    have h0 : l = ("http").toList ++ r0 := consumeLit_eq hc
    generalize hr1 : (match r0 with
      | 's' :: rr => rr
      | _ => r0) = r1 at h
    have hp1 : ∃ p1, r0 = p1 ++ r1 := by
      split at hr1
      · rename_i rr
        exact ⟨['s'], by rw [hr1]; rfl⟩
      · exact ⟨[], by rw [hr1]; rfl⟩
    obtain ⟨p1, hp1⟩ := hp1
    cases hcl2 : consumeLit (("://").toList) r1 with
    | none => rw [hcl2] at h; cases h
    | some r2 =>
      rw [hcl2] at h
      dsimp only at h
      have h2 : r1 = ("://").toList ++ r2 := consumeLit_eq hcl2
      rw [Option.some.injEq] at h
      by_cases hw : (("www.").toList).isPrefixOf r2 = true
      · rw [if_pos hw] at h
        obtain ⟨t, ht⟩ := List.isPrefixOf_iff_prefix.mp hw
        have hdrop : r2.drop 4 = t := by rw [← ht]; rfl
        refine ⟨("http").toList ++ p1 ++ ("://").toList ++ ("www.").toList, ?_⟩
        rw [h0, hp1, h2, ← ht, ← h, hdrop]
        simp [List.append_assoc]
      · rw [if_neg hw] at h
        refine ⟨("http").toList ++ p1 ++ ("://").toList, ?_⟩
        rw [h0, hp1, h2, ← h]
        simp [List.append_assoc]

theorem matchYt_parts {tail url : List Char} (h : matchYt tail url = true) :
    ∃ p r, url = p ++ (tail ++ r) := by
  unfold matchYt at h
  cases hs : consumeScheme url with
  | none => rw [hs] at h; cases h
  | some r0 =>
    rw [hs] at h
    dsimp only at h
    cases hc : consumeLit tail r0 with
    | none => rw [hc] at h; cases h
    | some r2 =>
      obtain ⟨p, hp⟩ := consumeScheme_parts hs
      exact ⟨p, r2, by rw [hp, consumeLit_eq hc]⟩

theorem validate_contains {url : List Char}
    (h : validate_youtube_url url = Except.ok ()) :
    containsSub (("youtube.com").toList) url = true
    ∨ containsSub (("youtu.be").toList) url = true := by
  unfold validate_youtube_url at h
  split at h
  · rename_i hcond
    rw [Bool.or_eq_true, Bool.or_eq_true, Bool.or_eq_true] at hcond
    rcases hcond with ((h1 | h2) | h3) | h4
    · obtain ⟨p, r, hpr⟩ := matchYt_parts h1
      refine Or.inl (containsSub_of_append _ p (("/watch?v=").toList ++ r) url ?_)
      rw [hpr]
      simp [List.append_assoc]
    · obtain ⟨p, r, hpr⟩ := matchYt_parts h2
      refine Or.inr (containsSub_of_append _ p (("/").toList ++ r) url ?_)
      rw [hpr]
      simp [List.append_assoc]
    · obtain ⟨p, r, hpr⟩ := matchYt_parts h3
      refine Or.inl (containsSub_of_append _ p (("/playlist?list=").toList ++ r) url ?_)
      rw [hpr]
      simp [List.append_assoc]
    · obtain ⟨p, r, hpr⟩ := matchYt_parts h4
      refine Or.inl (containsSub_of_append _ p (("/shorts/").toList ++ r) url ?_)
      rw [hpr]
      simp [List.append_assoc]
  · cases h

/-- C10: the interactive live validation sets `is_valid` to `None` exactly
when the buffer is empty, to `Some(true)` exactly when it contains the
substring `youtube.com` or `youtu.be`, and to `Some(false)` otherwise; this
predicate is strictly weaker than the batch validator: every URL accepted
by `validate_youtube_url` contains one of those substrings, while the
buffer `youtube.com` is accepted interactively but rejected by the batch
validator. -/
theorem live_validation_weaker_than_batch (input : String) (cursor_pos : ℕ)
    (u : String) (cp : ℕ) (v : Option Bool) (m : String)
    (r : List DownloadHistory) (url : List Char)
    (hv : validate_youtube_url url = Except.ok ()) :
    (getIsValid (update_input input cursor_pos (AppState.UrlInput u cp v m r)) = none
      ↔ input = "")
    ∧ (getIsValid (update_input input cursor_pos (AppState.UrlInput u cp v m r)) = some true
      ↔ input ≠ ""
        ∧ (containsSub (("youtube.com").toList) input.toList = true
           ∨ containsSub (("youtu.be").toList) input.toList = true))
    ∧ (getIsValid (update_input input cursor_pos (AppState.UrlInput u cp v m r)) = some false
      ↔ input ≠ ""
        ∧ ¬(containsSub (("youtube.com").toList) input.toList = true
            ∨ containsSub (("youtu.be").toList) input.toList = true))
    ∧ (containsSub (("youtube.com").toList) url = true
       ∨ containsSub (("youtu.be").toList) url = true)
    ∧ (getIsValid (update_input ("youtube.com") 11
          (AppState.UrlInput ("") 0 none ("") [])) = some true
       ∧ validate_youtube_url (("youtube.com").toList) ≠ Except.ok ()) := by
  refine ⟨?_, ?_, ?_, validate_contains hv, by decide, by decide⟩
  · unfold update_input
    dsimp only
    by_cases he : input.isEmpty
    · rw [if_pos he]
      have heq : input = "" := (String.isEmpty_iff input).mp he
      exact ⟨fun _ => heq, fun _ => rfl⟩
    · rw [if_neg he]
      have hne : input ≠ "" := fun hcontra => he (by rw [hcontra]; rfl)
      split
      · exact ⟨fun hx => absurd hx (by simp [getIsValid]), fun hx => absurd hx hne⟩
      · exact ⟨fun hx => absurd hx (by simp [getIsValid]), fun hx => absurd hx hne⟩
  · unfold update_input
    dsimp only
    by_cases he : input.isEmpty
    · rw [if_pos he]
      have heq : input = "" := (String.isEmpty_iff input).mp he
      exact ⟨fun hx => absurd hx (by simp [getIsValid]), fun hx => absurd heq hx.1⟩
    · rw [if_neg he]
      have hne : input ≠ "" := fun hcontra => he (by rw [hcontra]; rfl)
      by_cases hc : (containsSub (("youtube.com").toList) input.toList
          || containsSub (("youtu.be").toList) input.toList) = true
      · rw [if_pos hc]
        exact ⟨fun _ => ⟨hne, by rw [Bool.or_eq_true] at hc; exact hc⟩, fun _ => rfl⟩
      · rw [if_neg hc]
        exact ⟨fun hx => absurd hx (by simp [getIsValid]),
               fun hx => (hc (by rw [Bool.or_eq_true]; exact hx.2)).elim⟩
  · unfold update_input
    dsimp only
    by_cases he : input.isEmpty
    · rw [if_pos he]
      have heq : input = "" := (String.isEmpty_iff input).mp he
      exact ⟨fun hx => absurd hx (by simp [getIsValid]), fun hx => absurd heq hx.1⟩
    · rw [if_neg he]
      have hne : input ≠ "" := fun hcontra => he (by rw [hcontra]; rfl)
      by_cases hc : (containsSub (("youtube.com").toList) input.toList
          || containsSub (("youtu.be").toList) input.toList) = true
      · rw [if_pos hc]
        exact ⟨fun hx => absurd hx (by simp [getIsValid]),
               fun hx => (hx.2 (by rw [Bool.or_eq_true] at hc; exact hc)).elim⟩
      · rw [if_neg hc]
        exact ⟨fun _ => ⟨hne, fun hd => hc (by rw [Bool.or_eq_true]; exact hd)⟩, fun _ => rfl⟩

theorem live_validation_weaker_than_batch_witness :
    containsSub (("youtube.com").toList) (("https://youtu.be/abc").toList) = true
    ∨ containsSub (("youtu.be").toList) (("https://youtu.be/abc").toList) = true :=
  (live_validation_weaker_than_batch ("x") 1 ("") 0 none ("") []
    (("https://youtu.be/abc").toList) (by decide)).2.2.2.1
